import Mathlib

/-!
Verification of the PDF parsing / LLM orchestration core
(`pdf_parser.py`, `llm_service.py`) against its natural-language
specification.  Python strings are modelled as `List Char`, Python
integers as `Int` (with floor division `Int.fdiv` for `//`), Python
floats in the two confidence scorers as exact rationals `ℚ`, and the
fallible/possibly-divergent chunking loop as a fuel-indexed recursion
returning `Option`.
-/

/-- Python `str.strip()` whitespace set, restricted to the ASCII
whitespace characters (all texts considered here are ASCII). -/
def isPySpace (c : Char) : Bool :=
  c = ' ' || c = '\t' || c = '\n' || c = '\r' || c = '\x0b' || c = '\x0c'

/-- Python `str.lstrip()`. -/
def pyLstrip (l : List Char) : List Char := l.dropWhile isPySpace

/-- Python `str.rstrip()`. -/
def pyRstrip (l : List Char) : List Char := (l.reverse.dropWhile isPySpace).reverse

/-- Python `str.strip()` (trims whitespace at both ends). -/
def pyStrip (l : List Char) : List Char := pyLstrip (pyRstrip l)

/-- Clamp one endpoint of a Python slice `l[a:b]` to `[0, n]`:
a negative index counts from the end and is then clamped at `0`,
a nonnegative one is clamped at `n`. -/
def pyBoundIdx (n : Nat) (i : Int) : Nat :=
  if i < 0 then (i + n).toNat else min i.toNat n

/-- Python slice `l[a:b]` (step 1), with full negative-index semantics. -/
def pySlice (l : List Char) (a b : Int) : List Char :=
  (l.take (pyBoundIdx l.length b)).drop (pyBoundIdx l.length a)

/-- Python `str.rfind(c)` for a single-character needle: index of the
last occurrence, `-1` if absent. -/
def rfindC : List Char → Char → Int
  | [], _ => -1
  | c :: t, ch =>
    if 0 ≤ rfindC t ch then rfindC t ch + 1
    else if c == ch then 0 else -1

/-- One iteration of the loop body of `PDFParser.extract_text_chunks`
(`pdf_parser.py:368-381`) at window start `start`: computes the chunk
appended on that iteration (before `.strip()`) and the final value of
`end` (the boundary-shrunk window end when the guard fires). -/
def chunkStep (text : List Char) (chunk_size : Int) (start : Int) : List Char × Int :=
  let e := start + chunk_size
  let chunk := pySlice text start e
  if e < (text.length : Int) then
    let last_period := rfindC chunk '.'
    let last_newline := rfindC chunk '\n'
    let break_point := max last_period last_newline
    if break_point > start + Int.fdiv chunk_size 2 then
      (pySlice text start (start + break_point + 1), start + break_point + 1)
    else (chunk, e)
  else (chunk, e)

/-- Fuel-indexed unfolding of the `while start < len(text)` loop of
`PDFParser.extract_text_chunks`; `none` means the given fuel did not
suffice (the source loop would still be running). -/
def extract_text_chunks_aux (text : List Char) (chunk_size overlap : Int) :
    Nat → Int → List (List Char) → Option (List (List Char))
  | 0, _, _ => none
  | Nat.succ fuel, start, chunks =>
    if start < (text.length : Int) then
      extract_text_chunks_aux text chunk_size overlap fuel
        ((chunkStep text chunk_size start).2 - overlap)
        (pyStrip (chunkStep text chunk_size start).1 :: chunks)
    else some chunks.reverse

/-- `PDFParser.extract_text_chunks` (`pdf_parser.py:353-385`), run with
canonical fuel `len(text) + 1`; whenever the loop makes progress of at
least one position per iteration this fuel is sufficient. -/
def extract_text_chunks (text : List Char) (chunk_size overlap : Int) :
    Option (List (List Char)) :=
  extract_text_chunks_aux text chunk_size overlap (text.length + 1) 0 []

/-- If one loop iteration maps a start position back to itself, the
source loop never terminates from there: no fuel suffices. -/
theorem extract_text_chunks_aux_none_of_fix (text : List Char) (chunk_size overlap : Int)
    {s : Int} (hs : s < (text.length : Int))
    (hfix : (chunkStep text chunk_size s).2 - overlap = s) :
    ∀ fuel acc, extract_text_chunks_aux text chunk_size overlap fuel s acc = none := by
  intro fuel
  induction fuel with
  | zero => intro acc; rfl
  | succ n ih =>
    intro acc
    simp only [extract_text_chunks_aux]
    rw [if_pos hs, hfix]
    exact ih _

/-- C1: the spec demands that `extract_text_chunks` reject `overlap ≥
chunk_size` with an `InvalidChunkConfig` error; the source has no such
check and, at text `"ab"` with `chunk_size = 1`, `overlap = 1`, its
loop never advances `start` past `0`, so the call diverges (no fuel
yields a result) instead of failing with the required error. -/
theorem extract_text_chunks_overlap_ge_chunk_size_diverges :
    extract_text_chunks (String.toList "ab") 1 1 = none :=
  extract_text_chunks_aux_none_of_fix (String.toList "ab") 1 1
    (by decide) (by decide) _ []

/-- Progress bound for the loop: as long as the overlap is nonnegative,
smaller than the chunk size and at most `chunk_size // 2 + 1`, every
iteration advances the start position by at least one. -/
theorem chunkStep_advance (text : List Char) {chunk_size overlap start : Int}
    (h0 : 0 ≤ overlap) (h1 : overlap < chunk_size)
    (h2 : overlap ≤ Int.fdiv chunk_size 2 + 1) (h3 : 0 ≤ start) :
    start + 1 ≤ (chunkStep text chunk_size start).2 - overlap := by
  unfold chunkStep
  dsimp only
  split_ifs with he hb
  · generalize Int.fdiv chunk_size 2 = d at hb h2
    omega
  · omega
  · omega

/-- With the hypotheses of `chunkStep_advance`, fuel exceeding the
distance from the current start to the end of the text makes the loop
return a result. -/
theorem extract_text_chunks_aux_isSome (text : List Char) {chunk_size overlap : Int}
    (h0 : 0 ≤ overlap) (h1 : overlap < chunk_size)
    (h2 : overlap ≤ Int.fdiv chunk_size 2 + 1) :
    ∀ (fuel : Nat) (start : Int) (acc : List (List Char)), 0 ≤ start →
      ((text.length : Int) - start).toNat + 1 ≤ fuel →
      ∃ r, extract_text_chunks_aux text chunk_size overlap fuel start acc = some r := by
  intro fuel
  induction fuel with
  | zero => intro start acc _ hf; omega
  | succ n ih =>
    intro start acc h3 hf
    by_cases hlt : start < (text.length : Int)
    · simp only [extract_text_chunks_aux]
      rw [if_pos hlt]
      have hadv := @chunkStep_advance text chunk_size overlap start h0 h1 h2 h3
      exact ih _ _ (by omega) (by omega)
    · refine ⟨acc.reverse, ?_⟩
      simp only [extract_text_chunks_aux]
      rw [if_neg hlt]

/-- C2 (amended): for configurations with `0 ≤ overlap < chunk_size`
that additionally satisfy `overlap ≤ chunk_size // 2 + 1`,
`extract_text_chunks` terminates and returns a materialized list of
chunks, and on the empty text that list is empty.  (The extra bound is
forced by the counterexample
`extract_text_chunks_valid_config_diverges`: larger overlaps can make
the boundary-shrunk window end land at or before `start + overlap`.) -/
theorem extract_text_chunks_terminates (text : List Char) (chunk_size overlap : Int)
    (h0 : 0 ≤ overlap) (h1 : overlap < chunk_size)
    (h2 : overlap ≤ Int.fdiv chunk_size 2 + 1) :
    ∃ r, extract_text_chunks text chunk_size overlap = some r ∧
      (text = [] → r = []) := by
  obtain ⟨r, hr⟩ :=
    extract_text_chunks_aux_isSome text h0 h1 h2 (text.length + 1) 0 []
      le_rfl (by omega)
  refine ⟨r, hr, ?_⟩
  intro h
  subst h
  have : extract_text_chunks [] chunk_size overlap = some [] := rfl
  rw [show extract_text_chunks [] chunk_size overlap =
    extract_text_chunks_aux [] chunk_size overlap (List.length ([] : List Char) + 1) 0 []
    from rfl] at this
  rw [hr] at this
  exact (Option.some.injEq _ _).mp this

/-- C2 (witness): the termination theorem applied to the concrete text
`"a.b"` with `chunk_size = 2`, `overlap = 1`. -/
theorem extract_text_chunks_terminates_witness :
    ∃ r, extract_text_chunks (String.toList "a.b") 2 1 = some r ∧
      (String.toList "a.b" = [] → r = []) :=
  extract_text_chunks_terminates (String.toList "a.b") 2 1
    (by decide) (by decide) (by decide)

/-- In both branches of the loop body, the chunk appended (before
`.strip()`) is exactly the slice of the text from `start` to the final
value of `end`. -/
theorem chunkStep_fst (text : List Char) (chunk_size start : Int) :
    (chunkStep text chunk_size start).1 =
      pySlice text start (chunkStep text chunk_size start).2 := by
  unfold chunkStep
  dsimp only
  split_ifs <;> rfl

/-- Consecutive slices of the text concatenate: `text[s:e]` followed by
`text[e:]` is `text[s:]`, for `0 ≤ s ≤ e`. -/
theorem pySlice_append_drop (l : List Char) {s e : Int} (hs : 0 ≤ s) (hse : s ≤ e) :
    pySlice l s e ++ l.drop e.toNat = l.drop s.toNat := by
  unfold pySlice pyBoundIdx
  rw [if_neg (by omega), if_neg (by omega)]
  have h1 : l.drop e.toNat = l.drop (min e.toNat l.length) := by
    rcases le_total e.toNat l.length with h | h
    · rw [min_eq_left h]
    · rw [min_eq_right h, List.drop_eq_nil_of_le (by omega),
        List.drop_eq_nil_of_le (by omega)]
  have h2 : l.drop s.toNat = l.drop (min s.toNat l.length) := by
    rcases le_total s.toNat l.length with h | h
    · rw [min_eq_left h]
    · rw [min_eq_right h, List.drop_eq_nil_of_le (by omega),
        List.drop_eq_nil_of_le (by omega)]
  rw [h1, h2]
  rw [List.drop_take]
  have h4 : List.drop (min e.toNat l.length) l =
      List.drop (min e.toNat l.length - min s.toNat l.length)
        (List.drop (min s.toNat l.length) l) := by
    rw [List.drop_drop]
    congr 1
    omega
  rw [h4, List.take_append_drop]

/-- Variant of the chunking loop that records the raw (un-stripped)
window appended on each iteration; used to state the tiling property. -/
def extract_windows_aux (text : List Char) (chunk_size overlap : Int) :
    Nat → Int → List (List Char) → Option (List (List Char))
  | 0, _, _ => none
  | Nat.succ fuel, start, ws =>
    if start < (text.length : Int) then
      extract_windows_aux text chunk_size overlap fuel
        ((chunkStep text chunk_size start).2 - overlap)
        ((chunkStep text chunk_size start).1 :: ws)
    else some ws.reverse

/-- The raw windows of `extract_text_chunks`, with canonical fuel. -/
def extract_windows (text : List Char) (chunk_size overlap : Int) :
    Option (List (List Char)) :=
  extract_windows_aux text chunk_size overlap (text.length + 1) 0 []

/-- The chunks returned by the source are exactly the raw windows with
Python `strip()` applied to each. -/
theorem extract_text_chunks_aux_eq_windows (text : List Char) (chunk_size overlap : Int) :
    ∀ (fuel : Nat) (start : Int) (acc : List (List Char)),
      extract_text_chunks_aux text chunk_size overlap fuel start (acc.map pyStrip) =
        (extract_windows_aux text chunk_size overlap fuel start acc).map
          (List.map pyStrip) := by
  intro fuel
  induction fuel with
  | zero => intro start acc; rfl
  | succ n ih =>
    intro start acc
    simp only [extract_text_chunks_aux, extract_windows_aux]
    by_cases hlt : start < (text.length : Int)
    · rw [if_pos hlt, if_pos hlt]
      exact ih _ ((chunkStep text chunk_size start).1 :: acc)
    · rw [if_neg hlt, if_neg hlt]
      simp

/-- With `overlap = 0`, each window picks up the text exactly where the
previous one stopped, so the windows gathered from position `start`
concatenate to `text[start:]`. -/
theorem extract_windows_aux_join (text : List Char) {chunk_size : Int}
    (hcs : 1 ≤ chunk_size) :
    ∀ (fuel : Nat) (start : Int) (acc : List (List Char)), 0 ≤ start →
      ((text.length : Int) - start).toNat + 1 ≤ fuel →
      ∃ ws, extract_windows_aux text chunk_size 0 fuel start acc =
          some (acc.reverse ++ ws) ∧
        ws.flatten = text.drop start.toNat := by
  have hd : 0 ≤ Int.fdiv chunk_size 2 := Int.fdiv_nonneg (by omega) (by omega)
  intro fuel
  induction fuel with
  | zero => intro start acc _ hf; omega
  | succ n ih =>
    intro start acc h3 hf
    by_cases hlt : start < (text.length : Int)
    · simp only [extract_windows_aux]
      rw [if_pos hlt]
      have hadv := @chunkStep_advance text chunk_size 0 start (le_refl 0) (by omega) (by omega) h3
      obtain ⟨ws', h1', h2'⟩ :=
        ih ((chunkStep text chunk_size start).2 - 0)
          ((chunkStep text chunk_size start).1 :: acc) (by omega) (by omega)
      refine ⟨(chunkStep text chunk_size start).1 :: ws', ?_, ?_⟩
      · rw [h1']
        simp
      · rw [List.flatten_cons, h2', chunkStep_fst text chunk_size start]
        rw [show (chunkStep text chunk_size start).2 - 0 =
          (chunkStep text chunk_size start).2 from by omega]
        exact pySlice_append_drop text h3 (by omega)
    · refine ⟨[], ?_, ?_⟩
      · simp only [extract_windows_aux]
        rw [if_neg hlt]
        simp
      · rw [List.flatten_nil, List.drop_eq_nil_of_le (by omega)]

/-- C4 (amended): for `overlap = 0` and `chunk_size ≥ 1`, the raw
(un-stripped) windows of `extract_text_chunks` exactly tile the input
text, and each returned chunk is its window with leading/trailing
whitespace stripped; concatenating the returned chunks therefore
reconstructs the text exactly whenever no window has edge whitespace
(the `strip()` of each appended chunk is what the counterexample
`extract_text_chunks_concat_ne` forces into the claim). -/
theorem extract_text_chunks_tiles (text : List Char) (chunk_size : Int)
    (hcs : 1 ≤ chunk_size) :
    ∃ ws, extract_windows text chunk_size 0 = some ws ∧ ws.flatten = text ∧
      extract_text_chunks text chunk_size 0 = some (ws.map pyStrip) := by
  obtain ⟨ws, h1, h2⟩ :=
    extract_windows_aux_join text hcs (text.length + 1) 0 [] le_rfl (by omega)
  refine ⟨ws, ?_, ?_, ?_⟩
  · rw [show extract_windows text chunk_size 0 =
      extract_windows_aux text chunk_size 0 (text.length + 1) 0 [] from rfl, h1]
    simp
  · simpa using h2
  · have h3 := extract_text_chunks_aux_eq_windows text chunk_size 0
      (text.length + 1) 0 []
    rw [show (([] : List (List Char)).map pyStrip) = [] from rfl] at h3
    rw [show extract_text_chunks text chunk_size 0 =
      extract_text_chunks_aux text chunk_size 0 (text.length + 1) 0 [] from rfl,
      h3, h1]
    simp

/-- C4 (witness): the tiling theorem applied to the concrete text
`"ab.cd"` with `chunk_size = 3`. -/
theorem extract_text_chunks_tiles_witness :
    ∃ ws, extract_windows (String.toList "ab.cd") 3 0 = some ws ∧
      ws.flatten = String.toList "ab.cd" ∧
      extract_text_chunks (String.toList "ab.cd") 3 0 = some (ws.map pyStrip) :=
  extract_text_chunks_tiles (String.toList "ab.cd") 3 (by decide)

/-- C4 (counterexample): with `overlap = 0` and `chunk_size = 2` on the
text `"a b"`, the chunk boundary falls on the space, `strip()` discards
it, and the concatenation of the returned chunks is `"ab"`, not the
original text — refuting the exact-tiling claim as stated. -/
theorem extract_text_chunks_concat_ne :
    (extract_text_chunks (String.toList "a b") 2 0).map List.flatten ≠
      some (String.toList "a b") := by
  decide

/-- C2 (counterexample): with the valid configuration `chunk_size = 5`,
`overlap = 4` (so `0 ≤ overlap < chunk_size`) on the text `"aaa.aa"`,
the boundary shrink pulls `end` back to `4 = start + overlap`, the loop
never advances, and `extract_text_chunks` diverges — refuting
termination for every configuration with `overlap < chunk_size`. -/
theorem extract_text_chunks_valid_config_diverges :
    extract_text_chunks (String.toList "aaa.aa") 5 4 = none :=
  extract_text_chunks_aux_none_of_fix (String.toList "aaa.aa") 5 4
    (by decide) (by decide) _ []


/-- Unfolding the chunk loop when the guard `start < len(text)` holds. -/
theorem extract_aux_lt (text : List Char) (chunk_size overlap : Int) (fuel : Nat)
    (start : Int) (acc : List (List Char)) (h : start < (text.length : Int)) :
    extract_text_chunks_aux text chunk_size overlap (fuel + 1) start acc =
      extract_text_chunks_aux text chunk_size overlap fuel
        ((chunkStep text chunk_size start).2 - overlap)
        (pyStrip (chunkStep text chunk_size start).1 :: acc) := by
  simp only [extract_text_chunks_aux]
  rw [if_pos h]

/-- Unfolding the chunk loop when the guard `start < len(text)` fails. -/
theorem extract_aux_ge (text : List Char) (chunk_size overlap : Int) (fuel : Nat)
    (start : Int) (acc : List (List Char)) (h : ¬ start < (text.length : Int)) :
    extract_text_chunks_aux text chunk_size overlap (fuel + 1) start acc =
      some acc.reverse := by
  simp only [extract_text_chunks_aux]
  rw [if_neg h]

/-- `rfind` never returns anything below `-1`. -/
theorem rfindC_lower (l : List Char) (ch : Char) : -1 ≤ rfindC l ch := by
  induction l with
  | nil => norm_num [rfindC]
  | cons c t ih =>
    simp only [rfindC]
    split_ifs <;> omega

/-- `rfind` distributes over append: an occurrence in the right part
wins and is shifted by the left part's length. -/
theorem rfindC_append (l r : List Char) (ch : Char) :
    rfindC (l ++ r) ch =
      if 0 ≤ rfindC r ch then rfindC r ch + l.length else rfindC l ch := by
  induction l with
  | nil =>
    have h2 := rfindC_lower r ch
    rcases le_or_lt 0 (rfindC r ch) with h | h
    · rw [List.nil_append, if_pos h, List.length_nil]
      norm_num
    · rw [List.nil_append, if_neg (by omega)]
      show rfindC r ch = -1
      omega
  | cons c t ih =>
    have h2 := rfindC_lower r ch
    have h3 := rfindC_lower t ch
    simp only [List.cons_append, rfindC, List.append_eq, ih, List.length_cons]
    split_ifs <;> push_cast <;> omega

/-- `rfind` misses on a replicate of a different character. -/
theorem rfindC_replicate {a ch : Char} (n : Nat) (h : (a == ch) = false) :
    rfindC (List.replicate n a) ch = -1 := by
  induction n with
  | zero => rfl
  | succ m ih =>
    rw [List.replicate_succ]
    simp only [rfindC, ih, h]
    norm_num

/-- `dropWhile isPySpace` keeps a list that starts with a nonempty run
of `'a'`. -/
theorem dropWhile_replicate_a_append (n : Nat) (rest : List Char) (hn : n ≠ 0) :
    List.dropWhile isPySpace (List.replicate n 'a' ++ rest) =
      List.replicate n 'a' ++ rest := by
  cases n with
  | zero => exact absurd rfl hn
  | succ m =>
    rw [List.replicate_succ, List.cons_append, List.dropWhile_cons_of_neg (by decide)]

/-- Python `strip()` fixes any string that both starts and ends with a
nonempty run of `'a'`. -/
theorem pyStrip_replicate_sandwich (n m : Nat) (mid : List Char)
    (hn : n ≠ 0) (hm : m ≠ 0) :
    pyStrip (List.replicate n 'a' ++ (mid ++ List.replicate m 'a')) =
      List.replicate n 'a' ++ (mid ++ List.replicate m 'a') := by
  unfold pyStrip pyRstrip pyLstrip
  rw [List.reverse_append, List.reverse_append, List.reverse_replicate,
    List.reverse_replicate, List.append_assoc,
    dropWhile_replicate_a_append m _ hm,
    List.reverse_append, List.reverse_append, List.reverse_replicate,
    List.reverse_replicate, List.reverse_reverse, List.append_assoc,
    dropWhile_replicate_a_append n _ hn]

/-- Text of the C3 scenario: 2500 characters, all `'a'` except for
sentence-ending periods at 0-based offsets 998 and 1500 (written as
runs of `List.replicate`). -/
def c3Text : List Char :=
  List.replicate 998 'a' ++ List.replicate 1 '.' ++
    List.replicate 501 'a' ++ List.replicate 1 '.' ++ List.replicate 999 'a'

/-- The first window of the C3 scenario, boundary-trimmed to 0..999. -/
def c3Window0 : List Char :=
  List.replicate 998 'a' ++ (List.replicate 1 '.' ++ List.replicate 1 'a')

/-- The second (full-size) window of the C3 scenario, `text[799:1799]`. -/
def c3Window1 : List Char :=
  List.replicate 199 'a' ++ (List.replicate 1 '.' ++
    (List.replicate 501 'a' ++ (List.replicate 1 '.' ++ List.replicate 298 'a')))

/-- Whether a chunk ends at a sentence/newline boundary. -/
def endsAtBoundary (l : List Char) : Bool :=
  match l.getLast? with
  | some c => c == '.' || c == '\n'
  | none => false

/-- C3: on the 2500-character scenario text with `chunk_size = 1000`,
`overlap = 200`, the second window is `text[799:1799]` and its back
half `text[1299:1799]` contains a period (at absolute offset 1500,
i.e. chunk-relative index 701), yet the second returned chunk does not
end at a sentence/newline boundary: the source compares the
chunk-relative break index 701 against the absolute bound
`start + chunk_size // 2 = 1299`, so for windows with a positive start
offset the boundary shrink (almost) never fires. -/
theorem extract_text_chunks_midpoint_index_bug :
    ((extract_text_chunks c3Text 1000 200).bind (fun l => l.get? 1)).map endsAtBoundary
        = some false
      ∧ '.' ∈ pySlice c3Text 1299 1799 := by
  have hlen : c3Text.length = 2500 := by
    simp only [c3Text, List.length_append, List.length_replicate]
  have rA : ∀ n, rfindC (List.replicate n 'a') '.' = -1 :=
    fun n => rfindC_replicate n (by decide)
  have rAn : ∀ n, rfindC (List.replicate n 'a') '\n' = -1 :=
    fun n => rfindC_replicate n (by decide)
  have rDn : ∀ n, rfindC (List.replicate n '.') '\n' = -1 :=
    fun n => rfindC_replicate n (by decide)
  have rD : rfindC (List.replicate 1 '.') '.' = 0 := by decide
  have hW0 : pySlice c3Text 0 (0 + 1000) = c3Window0 := by
    simp only [c3Window0, pySlice, hlen]
    rw [show pyBoundIdx 2500 (0 + 1000) = 1000 from by decide,
      show pyBoundIdx 2500 0 = 0 from by decide]
    simp only [c3Text, List.take_append_eq_append_take, List.take_replicate,
      List.drop_append_eq_append_drop, List.drop_replicate,
      List.length_replicate, List.length_append, List.drop_zero]
    norm_num [Nat.min_def]
  have hW1 : pySlice c3Text 799 (799 + 1000) = c3Window1 := by
    simp only [c3Window1, pySlice, hlen]
    rw [show pyBoundIdx 2500 (799 + 1000) = 1799 from by decide,
      show pyBoundIdx 2500 799 = 799 from by decide]
    simp only [c3Text, List.take_append_eq_append_take, List.take_replicate,
      List.drop_append_eq_append_drop, List.drop_replicate,
      List.length_replicate, List.length_append]
    norm_num [Nat.min_def]
  have hr0p : rfindC c3Window0 '.' = 998 := by
    simp only [c3Window0, rfindC_append, rA, rD, List.length_replicate]
    norm_num
  have hr0n : rfindC c3Window0 '\n' = -1 := by
    simp only [c3Window0, rfindC_append, rAn, rDn, List.length_replicate]
    norm_num
  have hr1p : rfindC c3Window1 '.' = 701 := by
    simp only [c3Window1, rfindC_append, rA, rD, List.length_replicate]
    norm_num
  have hr1n : rfindC c3Window1 '\n' = -1 := by
    simp only [c3Window1, rfindC_append, rAn, rDn, List.length_replicate]
    norm_num
  have hstep0 : (chunkStep c3Text 1000 0).2 = 999 := by
    unfold chunkStep
    dsimp only
    rw [if_pos (show ((0 : Int) + 1000) < (c3Text.length : Int) from by
      rw [hlen]; decide)]
    rw [hW0, hr0p, hr0n]
    rw [if_pos (by decide : max (998 : Int) (-1) > 0 + Int.fdiv 1000 2)]
    decide
  have hstep1 : chunkStep c3Text 1000 799 = (c3Window1, 1799) := by
    unfold chunkStep
    dsimp only
    rw [if_pos (show ((799 : Int) + 1000) < (c3Text.length : Int) from by
      rw [hlen]; decide)]
    rw [hW1, hr1p, hr1n]
    rw [if_neg (by decide : ¬ max (701 : Int) (-1) > 799 + Int.fdiv 1000 2)]
    norm_num
  have hstep1a : (chunkStep c3Text 1000 799).2 = 1799 := by rw [hstep1]
  have hstep1b : (chunkStep c3Text 1000 799).1 = c3Window1 := by rw [hstep1]
  have hstep2 : (chunkStep c3Text 1000 1599).2 = 2599 := by
    unfold chunkStep
    dsimp only
    rw [if_neg (show ¬ ((1599 : Int) + 1000) < (c3Text.length : Int) from by
      rw [hlen]; decide)]
    decide
  have hstep3 : (chunkStep c3Text 1000 2399).2 = 3399 := by
    unfold chunkStep
    dsimp only
    rw [if_neg (show ¬ ((2399 : Int) + 1000) < (c3Text.length : Int) from by
      rw [hlen]; decide)]
    decide
  have hchain : extract_text_chunks c3Text 1000 200 =
      some [pyStrip (chunkStep c3Text 1000 0).1, pyStrip (chunkStep c3Text 1000 799).1,
        pyStrip (chunkStep c3Text 1000 1599).1, pyStrip (chunkStep c3Text 1000 2399).1] := by
    rw [show extract_text_chunks c3Text 1000 200 =
      extract_text_chunks_aux c3Text 1000 200 (c3Text.length + 1) 0 [] from rfl]
    rw [hlen]
    rw [extract_aux_lt c3Text 1000 200 2500 0 [] (by rw [hlen]; decide)]
    rw [hstep0, show (999 : Int) - 200 = 799 from by decide]
    rw [show (2500 : Nat) = 2499 + 1 from rfl]
    rw [extract_aux_lt c3Text 1000 200 2499 799 _ (by rw [hlen]; decide)]
    rw [hstep1a, show (1799 : Int) - 200 = 1599 from by decide]
    rw [show (2499 : Nat) = 2498 + 1 from rfl]
    rw [extract_aux_lt c3Text 1000 200 2498 1599 _ (by rw [hlen]; decide)]
    rw [hstep2, show (2599 : Int) - 200 = 2399 from by decide]
    rw [show (2498 : Nat) = 2497 + 1 from rfl]
    rw [extract_aux_lt c3Text 1000 200 2497 2399 _ (by rw [hlen]; decide)]
    rw [hstep3, show (3399 : Int) - 200 = 3199 from by decide]
    rw [show (2497 : Nat) = 2496 + 1 from rfl]
    rw [extract_aux_ge c3Text 1000 200 2496 3199 _ (by rw [hlen]; decide)]
    rfl
  constructor
  · rw [hchain]
    show some (endsAtBoundary (pyStrip (chunkStep c3Text 1000 799).1)) = some false
    rw [hstep1b]
    have hstrip : pyStrip c3Window1 = c3Window1 := by
      have h := pyStrip_replicate_sandwich 199 298
        (List.replicate 1 '.' ++ (List.replicate 501 'a' ++ List.replicate 1 '.'))
        (by decide) (by decide)
      simp only [c3Window1, List.append_assoc]
      simp only [List.append_assoc] at h
      exact h
    rw [hstrip]
    have hlast : c3Window1.getLast? = some 'a' := by
      simp only [c3Window1, List.getLast?_append]
      rw [show (List.replicate 298 'a').getLast? = some 'a' from by
        rw [show (298 : Nat) = 297 + 1 from rfl, List.replicate_succ', List.getLast?_concat]]
      rfl
    unfold endsAtBoundary
    rw [hlast]
    rfl
  · have hB : pySlice c3Text 1299 1799 =
        List.replicate 201 'a' ++ (List.replicate 1 '.' ++ List.replicate 298 'a') := by
      simp only [pySlice, hlen]
      rw [show pyBoundIdx 2500 1799 = 1799 from by decide,
        show pyBoundIdx 2500 1299 = 1299 from by decide]
      simp only [c3Text, List.take_append_eq_append_take, List.take_replicate,
        List.drop_append_eq_append_drop, List.drop_replicate,
        List.length_replicate, List.length_append]
      norm_num [Nat.min_def]
    rw [hB]
    simp only [List.mem_append]
    exact Or.inr (Or.inl (List.mem_replicate.mpr ⟨by decide, rfl⟩))

/-- Python `str.lower()` on one character, for the ASCII range (the
classifier patterns are all ASCII). -/
def pyLower (c : Char) : Char :=
  if 'A' ≤ c ∧ c ≤ 'Z' then Char.ofNat (c.toNat + 32) else c

/-- Python `str.lower()` on a string. -/
def lowerL (l : List Char) : List Char := l.map pyLower

/-- Whether `needle` is a starting segment of `hay`. -/
def startsWithL : List Char → List Char → Bool
  | [], _ => true
  | _ :: _, [] => false
  | a :: as, b :: bs => a == b && startsWithL as bs

/-- Python substring containment `needle in hay`. -/
def containsSub : List Char → List Char → Bool
  | needle, [] => startsWithL needle []
  | needle, c :: t => startsWithL needle (c :: t) || containsSub needle t

/-- Mapping a function over both strings preserves starting segments. -/
theorem startsWithL_map (f : Char → Char) :
    ∀ n h : List Char, startsWithL n h = true →
      startsWithL (n.map f) (h.map f) = true := by
  intro n
  induction n with
  | nil => intro h _; rfl
  | cons a as ih =>
    intro h hs
    cases h with
    | nil => exact absurd hs (by simp [startsWithL])
    | cons b bs =>
      simp only [startsWithL, Bool.and_eq_true, beq_iff_eq] at hs
      obtain ⟨rfl, h2⟩ := hs
      simp only [List.map_cons, startsWithL, Bool.and_eq_true, beq_iff_eq]
      exact ⟨trivial, ih bs h2⟩

/-- Mapping a function over both strings preserves containment. -/
theorem containsSub_map (f : Char → Char) :
    ∀ n h : List Char, containsSub n h = true →
      containsSub (n.map f) (h.map f) = true := by
  intro n h
  induction h with
  | nil => exact fun hc => startsWithL_map f n [] hc
  | cons c t ih =>
    intro hc
    simp only [containsSub, Bool.or_eq_true] at hc
    rcases hc with hc | hc
    · simp only [List.map_cons, containsSub, Bool.or_eq_true]
      exact Or.inl (by simpa using startsWithL_map f n (c :: t) hc)
    · simp only [List.map_cons, containsSub, Bool.or_eq_true]
      exact Or.inr (ih hc)


/-- The USCIS form-pattern registry of `PDFParser._classify_document`
(`pdf_parser.py:300-311`), in Python dict insertion order (Python
dicts iterate in insertion order). -/
def form_patterns : List (String × List String) :=
  [("I-130", ["i-130", "petition for alien relative"]),
   ("I-485", ["i-485", "application to register permanent residence"]),
   ("I-765", ["i-765", "application for employment authorization"]),
   ("I-821D", ["i-821d", "daca", "deferred action"]),
   ("I-90", ["i-90", "application to replace permanent resident card"]),
   ("N-400", ["n-400", "application for naturalization"]),
   ("I-864", ["i-864", "affidavit of support"]),
   ("I-693", ["i-693", "report of medical examination"]),
   ("G-1145", ["g-1145", "e-notification"]),
   ("I-131", ["i-131", "application for travel document"])]

/-- The `for form_type, patterns in form_patterns.items()` loop of the
classifier: first registry entry with any matching pattern wins. -/
def findFormType : List (String × List String) → List Char → Option String
  | [], _ => none
  | fp :: rest, text_lower =>
    if fp.2.any (fun p => containsSub (String.toList p) text_lower) then some fp.1
    else findFormType rest text_lower

/-- `PDFParser._classify_document` (`pdf_parser.py:295-329`): lowercase
the text, scan the form registry in order, then try the generic
document categories, else the unknown sentinel: the general-document
else-chain of lines 318-329. -/
def classify_generic (text_lower : List Char) : String :=
  if containsSub (String.toList "passport") text_lower then "Passport"
  else if containsSub (String.toList "birth certificate") text_lower then "Birth Certificate"
  else if containsSub (String.toList "marriage certificate") text_lower then "Marriage Certificate"
  else if containsSub (String.toList "divorce decree") text_lower then "Divorce Decree"
  else if containsSub (String.toList "employment") text_lower &&
      containsSub (String.toList "authorization") text_lower then "Employment Authorization"
  else "Unknown Document"

/-- `PDFParser._classify_document` (`pdf_parser.py:295-329`): lowercase
the text, scan the form registry in order, fall through to the generic
categories, else the unknown sentinel. -/
def classify_document (text : List Char) : String :=
  let text_lower := lowerL text
  match findFormType form_patterns text_lower with
  | some form_type => form_type
  | none => classify_generic text_lower

/-- Whether any registered or generic pattern of the classifier
matches the lowered text (the conditions of `classify_document`, in
order). -/
def matchesAnyPattern (text : List Char) : Bool :=
  let text_lower := lowerL text
  form_patterns.any (fun fp => fp.2.any (fun p => containsSub (String.toList p) text_lower)) ||
  containsSub (String.toList "passport") text_lower ||
  containsSub (String.toList "birth certificate") text_lower ||
  containsSub (String.toList "marriage certificate") text_lower ||
  containsSub (String.toList "divorce decree") text_lower ||
  (containsSub (String.toList "employment") text_lower &&
    containsSub (String.toList "authorization") text_lower)

/-- The labels the classifier can produce: the ten registry labels, the
five generic categories, and the unknown sentinel. -/
def knownLabels : List String :=
  ["I-130", "I-485", "I-765", "I-821D", "I-90", "N-400", "I-864", "I-693",
    "G-1145", "I-131", "Passport", "Birth Certificate", "Marriage Certificate",
    "Divorce Decree", "Employment Authorization", "Unknown Document"]

/-- A successful registry scan returns one of the registry's labels. -/
theorem findFormType_mem :
    ∀ (reg : List (String × List String)) (t : List Char) (s : String),
      findFormType reg t = some s → s ∈ reg.map Prod.fst := by
  intro reg
  induction reg with
  | nil => intro t s h; exact absurd h (by simp [findFormType])
  | cons fp rest ih =>
    intro t s h
    unfold findFormType at h
    by_cases hc : fp.2.any (fun p => containsSub (String.toList p) t) = true
    · rw [if_pos hc] at h
      simp only [Option.some.injEq] at h
      subst h
      exact List.mem_cons_self _ _
    · rw [if_neg hc] at h
      exact List.mem_cons_of_mem _ (ih t s h)

/-- A registry scan over entries without any matching pattern fails. -/
theorem findFormType_none :
    ∀ (reg : List (String × List String)) (t : List Char),
      reg.any (fun fp => fp.2.any (fun p => containsSub (String.toList p) t)) = false →
      findFormType reg t = none := by
  intro reg
  induction reg with
  | nil => intro t _; rfl
  | cons fp rest ih =>
    intro t h
    simp only [List.any_cons, Bool.or_eq_false_iff] at h
    unfold findFormType
    rw [if_neg (by rw [h.1]; decide), ih t h.2]

/-- The generic fallback always produces one of the pinned labels. -/
theorem classify_generic_mem (t : List Char) : classify_generic t ∈ knownLabels := by
  unfold classify_generic
  split_ifs <;> decide

/-- C6: the classifier is total — it always returns one of the sixteen
pinned labels (and, as a pure Lean function, it is deterministic by
construction); it is order-sensitive — any text containing both
`"I-130"` and `"I-485"` classifies as `"I-130"`, the earlier label in
the registry's fixed iteration order; and when no registered or
generic pattern matches it returns the unknown sentinel. -/
theorem classify_document_spec (text : List Char) :
    classify_document text ∈ knownLabels
    ∧ (containsSub (String.toList "I-130") text = true →
        containsSub (String.toList "I-485") text = true →
        classify_document text = "I-130")
    ∧ (matchesAnyPattern text = false →
        classify_document text = "Unknown Document") := by
  refine ⟨?_, ?_, ?_⟩
  · unfold classify_document
    dsimp only
    cases hf : findFormType form_patterns (lowerL text) with
    | none => exact classify_generic_mem (lowerL text)
    | some s =>
      have hm := findFormType_mem form_patterns (lowerL text) s hf
      have hsub : ∀ x ∈ form_patterns.map Prod.fst, x ∈ knownLabels := by decide
      exact hsub s hm
  · intro h1 _
    have hl : containsSub (String.toList "i-130") (lowerL text) = true := by
      have h := containsSub_map pyLower (String.toList "I-130") text h1
      rw [show List.map pyLower (String.toList "I-130") = String.toList "i-130"
        from by decide] at h
      exact h
    have hford : findFormType form_patterns (lowerL text) = some "I-130" := by
      unfold form_patterns findFormType
      rw [if_pos (by simp only [List.any_cons, List.any_nil, hl, Bool.true_or])]
    unfold classify_document
    dsimp only
    rw [hford]
  · intro h
    unfold matchesAnyPattern at h
    dsimp only at h
    simp only [Bool.or_eq_false_iff] at h
    obtain ⟨⟨⟨⟨⟨hany, h1⟩, h2⟩, h3⟩, h4⟩, h5⟩ := h
    unfold classify_document
    dsimp only
    rw [findFormType_none form_patterns (lowerL text) hany]
    show classify_generic (lowerL text) = "Unknown Document"
    unfold classify_generic
    rw [if_neg (by rw [h1]; decide), if_neg (by rw [h2]; decide),
      if_neg (by rw [h3]; decide), if_neg (by rw [h4]; decide),
      if_neg (by rw [h5]; decide)]

/-- C6 (witness): the order-sensitivity clause applied to the concrete
text `"I-485 I-130"`, which contains both registry keys and classifies
as `"I-130"`. -/
theorem classify_document_spec_witness :
    classify_document (String.toList "I-485 I-130") = "I-130" :=
  (classify_document_spec (String.toList "I-485 I-130")).2.1 (by decide) (by decide)

/-- Any text containing the uppercase substring `"I-130"` classifies as
`"I-130"`: lowering preserves containment and the `I-130` entry is
first in the registry. -/
theorem classify_document_of_i130 (text : List Char)
    (h1 : containsSub (String.toList "I-130") text = true) :
    classify_document text = "I-130" := by
  have hl : containsSub (String.toList "i-130") (lowerL text) = true := by
    have h := containsSub_map pyLower (String.toList "I-130") text h1
    rw [show List.map pyLower (String.toList "I-130") = String.toList "i-130"
      from by decide] at h
    exact h
  have hford : findFormType form_patterns (lowerL text) = some "I-130" := by
    unfold form_patterns findFormType
    rw [if_pos (by simp only [List.any_cons, List.any_nil, hl, Bool.true_or])]
  unfold classify_document
  dsimp only
  rw [hford]

/-- `FormField` (`pdf_parser.py:32-39`); coordinates are modelled as an
exact-rational 4-box. -/
structure FormField where
  field_name : String
  field_type : String
  field_value : String
  coordinates : ℚ × ℚ × ℚ × ℚ
  page_number : Nat
deriving DecidableEq

/-- `TableData` (`pdf_parser.py:41-47`). -/
structure TableData where
  table_text : String
  table_data : List (List String)
  coordinates : ℚ × ℚ × ℚ × ℚ
  page_number : Nat
deriving DecidableEq

/-- `PDFParser._calculate_confidence` (`pdf_parser.py:331-351`), with
Python float arithmetic modelled as exact rationals (all sums of these
weights are exact in binary64 as well). -/
def calculate_confidence (text : List Char) (form_fields : List FormField)
    (tables : List TableData) : ℚ :=
  let score : ℚ := 0
  let score := if 100 < (pyStrip text).length then score + 3/10 else score
  let score := if form_fields ≠ [] then score + 2/10 else score
  let score := if tables ≠ [] then score + 2/10 else score
  let score := if classify_document text ≠ "Unknown Document" then score + 3/10 else score
  min score 1

/-- C5 (amended): the confidence score is exactly the clamped sum of
the four fixed weights (0.3 for trimmed length > 100, 0.2 for a
nonempty form-field list, 0.2 for a nonempty table list, 0.3 for a
known classification); it always lies in [0, 1]; it is exactly 1 when
all four signals hold; and it is exactly 0.6 = 3/5 for a text of
trimmed length > 100 containing `"I-130"` with no fields and no tables
(the length condition is forced by the counterexample
`calculate_confidence_short_i130`). -/
theorem calculate_confidence_spec (text : List Char) (form_fields : List FormField)
    (tables : List TableData) :
    calculate_confidence text form_fields tables =
      min ((if 100 < (pyStrip text).length then (3 : ℚ)/10 else 0)
        + (if form_fields ≠ [] then (2 : ℚ)/10 else 0)
        + (if tables ≠ [] then (2 : ℚ)/10 else 0)
        + (if classify_document text ≠ "Unknown Document" then (3 : ℚ)/10 else 0)) 1
    ∧ 0 ≤ calculate_confidence text form_fields tables
    ∧ calculate_confidence text form_fields tables ≤ 1
    ∧ (100 < (pyStrip text).length → form_fields ≠ [] → tables ≠ [] →
        classify_document text ≠ "Unknown Document" →
        calculate_confidence text form_fields tables = 1)
    ∧ (100 < (pyStrip text).length → containsSub (String.toList "I-130") text = true →
        form_fields = [] → tables = [] →
        calculate_confidence text form_fields tables = 3/5) := by
  refine ⟨?_, ?_, ?_, ?_, ?_⟩
  · unfold calculate_confidence
    dsimp only
    split_ifs <;> norm_num
  · unfold calculate_confidence
    dsimp only
    split_ifs <;> exact le_min (by norm_num) (by norm_num)
  · exact min_le_right _ _
  · intro h1 h2 h3 h4
    unfold calculate_confidence
    dsimp only
    rw [if_pos h1, if_pos h2, if_pos h3, if_pos h4]
    norm_num
  · intro h1 hc hff htb
    subst hff
    subst htb
    have hcl := classify_document_of_i130 text hc
    unfold calculate_confidence
    dsimp only
    rw [if_pos h1,
      if_neg (show ¬(([] : List FormField) ≠ []) from fun h => h rfl),
      if_neg (show ¬(([] : List TableData) ≠ []) from fun h => h rfl),
      if_pos (show classify_document text ≠ "Unknown Document" from by
        rw [hcl]; decide)]
    norm_num

set_option maxRecDepth 4000 in
/-- C5 (witness): a 140-character text containing `"I-130"`, with no
fields and no tables, scores exactly 3/5. -/
theorem calculate_confidence_spec_witness :
    calculate_confidence (String.toList ("I-130 Petition for Alien Relative. " ++
      "This petition is filed by a citizen for an alien relative and contains " ++
      "more than one hundred characters.")) [] [] = 3/5 :=
  (calculate_confidence_spec (String.toList ("I-130 Petition for Alien Relative. " ++
      "This petition is filed by a citizen for an alien relative and contains " ++
      "more than one hundred characters.")) [] []).2.2.2.2
    (by decide) (by decide) rfl rfl

/-- C5 (counterexample): for the five-character text `"I-130"` with no
fields and no tables the score is 3/10, not the claimed 0.6 — the 0.6
outcome additionally needs trimmed text length > 100. -/
theorem calculate_confidence_short_i130 :
    calculate_confidence (String.toList "I-130") [] [] = 3/10
      ∧ calculate_confidence (String.toList "I-130") [] [] ≠ 3/5 := by
  have h : calculate_confidence (String.toList "I-130") [] [] = 3/10 := by
    unfold calculate_confidence
    dsimp only
    rw [if_neg (show ¬ 100 < (pyStrip (String.toList "I-130")).length from by decide),
      if_neg (show ¬(([] : List FormField) ≠ []) from fun h => h rfl),
      if_neg (show ¬(([] : List TableData) ≠ []) from fun h => h rfl),
      if_pos (show classify_document (String.toList "I-130") ≠ "Unknown Document" from by
        rw [classify_document_of_i130 (String.toList "I-130") (by decide)]; decide)]
    norm_num
  exact ⟨h, by rw [h]; norm_num⟩

/-- `LLMProvider` (`llm_service.py:22-25`); `locl` stands for the
source's `LOCAL` member (`local` is reserved in Lean). -/
inductive LLMProvider where
  | openai
  | anthropic
  | locl
deriving DecidableEq

/-- Python JSON values, as decoded by `json.loads`. -/
inductive PyJson where
  | obj : List (String × PyJson) → PyJson
  | arr : List PyJson → PyJson
  | str : String → PyJson
  | num : ℚ → PyJson
  | bool : Bool → PyJson
  | null : PyJson

/-- `LLMResponse` (`llm_service.py:27-35`). -/
structure LLMResponse where
  content : String
  provider : LLMProvider
  model : String
  tokens_used : Nat
  processing_time : ℚ
  confidence : ℚ

/-- `LLMService._extract_key_information` (`llm_service.py:139-168`),
restricted to its response handling: `json.loads` (an external
library, abstracted as the `loads` parameter returning `none` on a
`JSONDecodeError`) is tried on the raw response content, and on
failure the raw text is wrapped under the `"raw_response"` key. -/
def extract_key_information (loads : String → Option PyJson)
    (response : LLMResponse) : PyJson :=
  match loads response.content with
  | some v => v
  | none => PyJson.obj [("raw_response", PyJson.str response.content)]

/-- `LLMService.generate_faq` (`llm_service.py:356-376`), restricted to
its response handling: on a `JSONDecodeError` the fallback is a
one-element array holding an object with a fixed error question and
the raw text as the answer. -/
def generate_faq (loads : String → Option PyJson)
    (response : LLMResponse) : PyJson :=
  match loads response.content with
  | some v => v
  | none => PyJson.arr [PyJson.obj
      [("question", PyJson.str "Error parsing FAQ"), ("answer", PyJson.str response.content)]]

/-- C7 (amended): when strict JSON decoding of the raw model response
fails, neither operation raises: key-information extraction returns
the raw text wrapped under the `"raw_response"` sentinel key, while
FAQ generation returns `[ { question: "Error parsing FAQ", answer:
<raw text> } ]` — not the `"raw_response"` wrapper the claim states
(forced by the counterexample `generate_faq_fallback_shape`). -/
theorem json_fallback_spec (loads : String → Option PyJson) (response : LLMResponse)
    (h : loads response.content = none) :
    extract_key_information loads response =
        PyJson.obj [("raw_response", PyJson.str response.content)]
      ∧ generate_faq loads response = PyJson.arr [PyJson.obj
        [("question", PyJson.str "Error parsing FAQ"), ("answer", PyJson.str response.content)]] := by
  unfold extract_key_information generate_faq
  rw [h]
  exact ⟨rfl, rfl⟩

/-- C7 (witness): the fallback theorem applied to a decoder that always
fails and a concrete malformed response. -/
theorem json_fallback_spec_witness :
    extract_key_information (fun _ => none)
        ⟨"not json", LLMProvider.openai, "gpt-4", 0, 0, 9/10⟩ =
      PyJson.obj [("raw_response", PyJson.str "not json")]
      ∧ generate_faq (fun _ => none)
        ⟨"not json", LLMProvider.openai, "gpt-4", 0, 0, 9/10⟩ =
      PyJson.arr [PyJson.obj
        [("question", PyJson.str "Error parsing FAQ"), ("answer", PyJson.str "not json")]] :=
  json_fallback_spec (fun _ => none)
    ⟨"not json", LLMProvider.openai, "gpt-4", 0, 0, 9/10⟩ rfl

/-- C7 (counterexample): on decode failure `generate_faq` does not
return the `"raw_response"` wrapper the claim states — its fallback is
the fixed question/answer array. -/
theorem generate_faq_fallback_shape :
    generate_faq (fun _ => none)
        ⟨"not json", LLMProvider.openai, "gpt-4", 0, 0, 9/10⟩ ≠
      PyJson.obj [("raw_response", PyJson.str "not json")] := by
  intro h
  rw [show generate_faq (fun _ => none)
      ⟨"not json", LLMProvider.openai, "gpt-4", 0, 0, 9/10⟩ =
    PyJson.arr [PyJson.obj
      [("question", PyJson.str "Error parsing FAQ"), ("answer", PyJson.str "not json")]]
    from rfl] at h
  exact PyJson.noConfusion h

/-- `DocumentMetadata` (`pdf_parser.py:19-30`). -/
structure DocumentMetadata where
  title : String
  author : String
  subject : String
  creator : String
  producer : String
  creation_date : String
  modification_date : String
  page_count : Nat
  file_size : Nat

/-- One entry of `images_info` (`pdf_parser.py:282-289`). -/
structure ImageInfo where
  page_number : Nat
  image_index : Nat
  width : Nat
  height : Nat
  colorspace : String
  xref : Nat

/-- `ParsedDocument` (`pdf_parser.py:49-59`). -/
structure ParsedDocument where
  metadata : DocumentMetadata
  full_text : List Char
  pages_text : List (List Char)
  form_fields : List FormField
  tables : List TableData
  images_info : List ImageInfo
  document_type : String
  confidence_score : ℚ

/-- `LLMService._calculate_analysis_confidence`
(`llm_service.py:304-325`); the key-information dict is modelled as an
association list, Python truthiness of `key_info` as
`key_info.isEmpty = false`, and float arithmetic as exact rationals. -/
def calculate_analysis_confidence (parsed_doc : ParsedDocument)
    (summary : List Char) (key_info : List (String × PyJson)) : ℚ :=
  let score := parsed_doc.confidence_score * (4/10)
  let score := if 200 < summary.length then score + 2/10 else score
  let score := if key_info.isEmpty = false ∧ 3 < key_info.length then score + 2/10 else score
  let score := if parsed_doc.form_fields ≠ [] then score + 1/10 else score
  let score := if parsed_doc.document_type ≠ "Unknown Document" then score + 1/10 else score
  min score 1

/-- C8: the comprehensive-analysis confidence equals 0.4 times the
parsed document's confidence, plus 0.2 if the summary is longer than
200 characters, plus 0.2 if the key-information map has more than 3
entries, plus 0.1 if any form fields are present, plus 0.1 if the
classified type is not the unknown sentinel, clamped to at most 1. -/
theorem calculate_analysis_confidence_spec (parsed_doc : ParsedDocument)
    (summary : List Char) (key_info : List (String × PyJson)) :
    calculate_analysis_confidence parsed_doc summary key_info =
      min ((4/10) * parsed_doc.confidence_score
        + (if 200 < summary.length then (2 : ℚ)/10 else 0)
        + (if 3 < key_info.length then (2 : ℚ)/10 else 0)
        + (if parsed_doc.form_fields ≠ [] then (1 : ℚ)/10 else 0)
        + (if parsed_doc.document_type ≠ "Unknown Document" then (1 : ℚ)/10 else 0)) 1 := by
  unfold calculate_analysis_confidence
  dsimp only
  have hk : (key_info.isEmpty = false ∧ 3 < key_info.length) ↔ 3 < key_info.length := by
    cases key_info with
    | nil => simp
    | cons a l => simp
  simp only [hk]
  split_ifs <;> (congr 1; ring)

/-- `PDFParser._extract_text` (`pdf_parser.py:189-200`), taking the
per-page texts (`page.get_text()` results, an external library) as
input: the loop concatenates each page text followed by `"\n"`, then
returns the `strip()`-ed accumulation together with the page list. -/
def extract_text (pages_text : List (List Char)) : List Char × List (List Char) :=
  (pyStrip (pages_text.foldl (fun full_text page_text => full_text ++ page_text ++ ['\n']) []),
    pages_text)

/-- Pages joined with a single separating newline delimiter (no
trailing delimiter). -/
def joinPagesNl : List (List Char) → List Char
  | [] => []
  | [p] => p
  | p :: ps => p ++ '\n' :: joinPagesNl ps

/-- The claim's reading of the full-text invariant, written from the
spec's words: the ordered concatenation of per-page text joined with a
single separating delimiter, with only trailing whitespace trimmed. -/
def full_text_spec (pages_text : List (List Char)) : List Char :=
  pyRstrip (joinPagesNl pages_text)

/-- Pages each followed by a newline, concatenated (the loop's
accumulation shape). -/
def gluePages : List (List Char) → List Char
  | [] => []
  | p :: ps => p ++ '\n' :: gluePages ps

/-- The source's fold is the glued concatenation. -/
theorem foldl_glue : ∀ (pages : List (List Char)) (init : List Char),
    pages.foldl (fun a p => a ++ p ++ ['\n']) init = init ++ gluePages pages := by
  intro pages
  induction pages with
  | nil => intro init; simp [gluePages]
  | cons p ps ih =>
    intro init
    rw [List.foldl_cons, ih]
    simp [gluePages, List.append_assoc]

/-- For a nonempty page list, the glued concatenation is the
delimiter-join plus one trailing newline. -/
theorem glue_eq_join : ∀ pages : List (List Char), pages ≠ [] →
    gluePages pages = joinPagesNl pages ++ ['\n'] := by
  intro pages
  induction pages with
  | nil => intro h; exact absurd rfl h
  | cons p ps ih =>
    intro _
    cases ps with
    | nil => simp [gluePages, joinPagesNl]
    | cons q rest =>
      rw [show gluePages (p :: q :: rest) = p ++ '\n' :: gluePages (q :: rest) from rfl,
        ih (by simp)]
      simp [joinPagesNl, List.append_assoc, List.cons_append]

/-- `rstrip` absorbs a trailing newline. -/
theorem pyRstrip_append_nl (l : List Char) : pyRstrip (l ++ ['\n']) = pyRstrip l := by
  unfold pyRstrip
  rw [List.reverse_append, show (['\n'] : List Char).reverse = ['\n'] from rfl,
    List.singleton_append, List.dropWhile_cons_of_pos (by decide)]

/-- C9 (amended): the full text returned by `_extract_text` equals the
per-page texts joined with a single separating newline with leading
AND trailing whitespace trimmed (`strip()`, not just a trailing trim —
forced by the counterexample `extract_text_trims_leading`), and the
page list is returned unchanged. -/
theorem extract_text_full_text (pages_text : List (List Char)) :
    (extract_text pages_text).1 = pyStrip (joinPagesNl pages_text)
    ∧ (extract_text pages_text).2 = pages_text := by
  refine ⟨?_, rfl⟩
  unfold extract_text
  dsimp only
  rw [foldl_glue pages_text [], List.nil_append]
  cases pages_text with
  | nil => rfl
  | cons p ps =>
    rw [glue_eq_join (p :: ps) (by simp)]
    unfold pyStrip
    rw [pyRstrip_append_nl]

/-- C9 (counterexample): for a single page `" a"` the source's
`strip()` also removes the leading space, so the full text is `"a"`,
not the only-trailing-trimmed `" a"` the claim states. -/
theorem extract_text_trims_leading :
    (extract_text [String.toList " a"]).1 ≠ full_text_spec [String.toList " a"] := by
  decide

/-- One guidance record appended by `_analyze_form_fields`
(`llm_service.py:197-202`). -/
structure FieldAnalysisRecord where
  field_name : String
  field_type : String
  guidance : String
  page_number : Nat

/-- The per-field prompt of `_analyze_form_fields`
(`llm_service.py:178-193`), with the f-string's leading indentation
elided. -/
def field_guidance_prompt (parsed_doc : ParsedDocument) (field : FormField) : String :=
  "Analyze this form field from an immigration document:\n\nField Name: "
    ++ field.field_name ++ "\nField Type: " ++ field.field_type
    ++ "\nCurrent Value: " ++ field.field_value
    ++ "\nDocument Type: " ++ parsed_doc.document_type
    ++ "\n\nProvide guidance on:\n1. What information should be entered"
    ++ "\n2. Format requirements\n3. Common mistakes to avoid"
    ++ "\n4. Required supporting documents\n\nKeep response concise and practical."

/-- `LLMService._analyze_form_fields` (`llm_service.py:170-204`): with
no form fields, return the empty list immediately; otherwise loop over
the fields in order, issuing one provider call per field (`call_llm`
abstracts `_call_llm`, mapping a prompt to the provider's response)
and appending one record per field.  The second component counts the
provider calls issued. -/
def analyze_form_fields (call_llm : String → LLMResponse)
    (parsed_doc : ParsedDocument) : List FieldAnalysisRecord × Nat :=
  if parsed_doc.form_fields.isEmpty then ([], 0)
  else
    parsed_doc.form_fields.foldl
      (fun form_analysis field =>
        (form_analysis.1 ++ [⟨field.field_name, field.field_type,
          (call_llm (field_guidance_prompt parsed_doc field)).content, field.page_number⟩],
        form_analysis.2 + 1))
      ([], 0)

/-- C10: the per-field analysis returns exactly one guidance record
per form field, in document order, each carrying that field's name,
type and page number (and the provider's guidance text for that
field's prompt); the number of provider calls equals the number of
fields — in particular, a document with no form fields yields the
empty list with zero provider calls. -/
theorem analyze_form_fields_spec (call_llm : String → LLMResponse)
    (parsed_doc : ParsedDocument) :
    (analyze_form_fields call_llm parsed_doc).1 =
      parsed_doc.form_fields.map (fun field =>
        ⟨field.field_name, field.field_type,
          (call_llm (field_guidance_prompt parsed_doc field)).content, field.page_number⟩)
    ∧ (analyze_form_fields call_llm parsed_doc).2 = parsed_doc.form_fields.length := by
  have hf : ∀ (l : List FormField) (acc : List FieldAnalysisRecord × Nat),
      l.foldl (fun form_analysis field => (form_analysis.1 ++
          [⟨field.field_name, field.field_type,
            (call_llm (field_guidance_prompt parsed_doc field)).content, field.page_number⟩],
          form_analysis.2 + 1)) acc
        = (acc.1 ++ l.map (fun field => ⟨field.field_name, field.field_type,
            (call_llm (field_guidance_prompt parsed_doc field)).content, field.page_number⟩),
          acc.2 + l.length) := by
    intro l
    induction l with
    | nil => intro acc; simp
    | cons x xs ih =>
      intro acc
      rw [List.foldl_cons, ih]
      simp [List.append_assoc, Prod.ext_iff]
      omega
  unfold analyze_form_fields
  by_cases he : parsed_doc.form_fields.isEmpty
  · rw [if_pos he]
    have hnil : parsed_doc.form_fields = [] := by
      cases hh : parsed_doc.form_fields with
      | nil => rfl
      | cons a l => rw [hh] at he; exact absurd he (by simp)
    rw [hnil]
    exact ⟨rfl, rfl⟩
  · rw [if_neg he, hf parsed_doc.form_fields ([], 0)]
    simp
